import Mathlib

/-!
# Result Explorer — verification of the scan-result view-derivation core

Shallow embedding of the Result Explorer of the `fronetend` repository
(main variant, the `ServiceNowScanner` component): the in-memory state,
the risk filter, the paginator, the selection state, and the render
decision, translated from the JavaScript source.  JavaScript arrays become
`List`, JS `Set` becomes `Finset String`, nullable values become `Option`,
and JS truthiness checks are made explicit.
-/

/-- A candidate replacement owner, as carried in a CI's
`recommended_owners` array (index 0 is the primary recommendation). -/
structure OwnerCandidate where
  username : String
  displayName : String
  score : Nat
  deriving Repr, DecidableEq

/-- A configuration item of a scan result (the fields the explorer reads).
`risk_level` is `Option String`: `none` models an absent/undefined field. -/
structure ConfigurationItem where
  ci_id : String
  name : String
  risk_level : Option String
  recommended_owners : List OwnerCandidate
  deriving Repr, DecidableEq

/-- The `stale_cis` field of a scan payload as the JS guard
`!scanResults.stale_cis || !Array.isArray(scanResults.stale_cis)` sees it:
absent/falsy, present but not an array, or an actual array of CIs. -/
inductive StaleCisField where
  | missing
  | nonArray
  | arr (cis : List ConfigurationItem)
  deriving Repr, DecidableEq

/-- One scan payload as received: an optional `error` field (a JS string;
`none` models absence) and the `stale_cis` field. -/
structure ScanPayload where
  error : Option String
  stale_cis : StaleCisField
  deriving Repr, DecidableEq

/-- The component state of the explorer: `scanResults` (null until a scan
finishes), the expanded CI, the current page, the set of CIs with the
alternate-recommendations panel open, and the active risk filter
(`'all' | 'critical' | 'high' | 'medium' | 'low'`). -/
structure AppState where
  scanResults : Option ScanPayload
  expandedCI : Option String
  currentPage : Nat
  expandedAlternates : Finset String
  activeFilter : String
  deriving DecidableEq

/-- `const [itemsPerPage] = useState(50)` — fixed page size. -/
def itemsPerPage : Nat := 50

/-- `ci.risk_level ? ci.risk_level.toLowerCase() : ''` — the lowercased
risk level, with JS truthiness: an absent or empty string yields `''`. -/
def jsRiskLower (ci : ConfigurationItem) : String :=
  match ci.risk_level with
  | none => ""
  | some r => if r = "" then "" else r.toLower

/-- `getFilteredCIs`: returns `[]` unless `scanResults.stale_cis` is a real
array; returns it unchanged for filter `'all'`, otherwise keeps the CIs
whose lowercased `risk_level` equals the active filter string. -/
def getFilteredCIs (s : AppState) : List ConfigurationItem :=
  match s.scanResults with
  | none => []
  | some p =>
    match p.stale_cis with
    | .missing => []
    | .nonArray => []
    | .arr cis =>
      if s.activeFilter = "all" then cis
      else cis.filter (fun ci => jsRiskLower ci = s.activeFilter)

/-- `getPaginatedCIs`: `filteredCIs.slice((currentPage-1)*itemsPerPage,
(currentPage-1)*itemsPerPage + itemsPerPage)`. -/
def getPaginatedCIs (s : AppState) : List ConfigurationItem :=
  ((getFilteredCIs s).drop ((s.currentPage - 1) * itemsPerPage)).take itemsPerPage

/-- `getTotalPages`: `0` on an empty filtered list, else
`Math.ceil(filteredCIs.length / itemsPerPage)`. -/
def getTotalPages (s : AppState) : Nat :=
  if (getFilteredCIs s).length = 0 then 0
  else ((getFilteredCIs s).length + itemsPerPage - 1) / itemsPerPage

/-- `setFilter(filter)`: installs the filter, resets to page 1, closes the
expanded CI and clears the expanded alternates. -/
def setFilter (f : String) (s : AppState) : AppState :=
  { s with activeFilter := f, currentPage := 1,
           expandedCI := none, expandedAlternates := ∅ }

/-- `goToPage(page)`: sets the page and closes any expanded CI (the
expanded-alternates set is left untouched by the source). -/
def goToPage (page : Nat) (s : AppState) : AppState :=
  { s with currentPage := page, expandedCI := none }

/-- `goToNextPage`: steps forward only when `currentPage < getTotalPages()`. -/
def goToNextPage (s : AppState) : AppState :=
  if s.currentPage < getTotalPages s then goToPage (s.currentPage + 1) s else s

/-- `goToPrevPage`: steps back only when `currentPage > 1`. -/
def goToPrevPage (s : AppState) : AppState :=
  if 1 < s.currentPage then goToPage (s.currentPage - 1) s else s

/-- `toggleCIExpansion(ciId)`: collapse if already expanded, else expand. -/
def toggleCIExpansion (ciId : String) (s : AppState) : AppState :=
  { s with expandedCI := if s.expandedCI = some ciId then none else some ciId }

/-- `toggleAlternateRecommendations(ciId)`: symmetric-difference toggle of
`ciId` in the `expandedAlternates` set. -/
def toggleAlternateRecommendations (ciId : String) (s : AppState) : AppState :=
  { s with expandedAlternates :=
      if ciId ∈ s.expandedAlternates then s.expandedAlternates.erase ciId
      else insert ciId s.expandedAlternates }

/-- `setScanResults(payload)` followed by the `useEffect(..., [scanResults])`
hook: installing a new payload resets the page to 1, closes the expanded
CI, empties the expanded alternates and sets the filter back to `'all'`. -/
def setResult (p : Option ScanPayload) (s : AppState) : AppState :=
  { s with scanResults := p, currentPage := 1, expandedCI := none,
           expandedAlternates := ∅, activeFilter := "all" }

/-- What the results section renders: nothing before a scan, the error
card when `scanResults.error` is truthy, else the results view (summary,
the paginated CI list, pagination controls). -/
inductive RenderView where
  | noResults
  | errorCard (msg : String)
  | resultsView (pageItems : List ConfigurationItem) (totalPages : Nat)
  deriving Repr, DecidableEq

/-- JS truthiness of the `error` field: present and a non-empty string. -/
def errTruthy : Option String → Bool
  | none => false
  | some m => m ≠ ""

/-- The render decision `scanResults && (scanResults.error ? ... : ...)`. -/
def render (s : AppState) : RenderView :=
  match s.scanResults with
  | none => .noResults
  | some p =>
    if errTruthy p.error then .errorCard (p.error.getD "")
    else .resultsView (getPaginatedCIs s) (getTotalPages s)

/-- Grouping key of a CI: the username of its primary recommendation
(`recommendedOwners[0]`), when the recommendation list is non-empty. -/
def ciKey (ci : ConfigurationItem) : Option String :=
  ci.recommended_owners.head?.map (fun o => o.username)

/-- Keep the first occurrence of each element, in order of first
appearance. -/
def firstOccs : List String → List String
  | [] => []
  | a :: l => a :: firstOccs (l.filter (fun b => b != a))
termination_by l => l.length
decreasing_by
  exact Nat.lt_succ_of_le (List.length_filter_le _ l)

/-- The CIs whose grouping key is the given username, in original order. -/
def cisForOwner (cis : List ConfigurationItem) (u : String) : List ConfigurationItem :=
  cis.filter (fun ci => ciKey ci = some u)

/-- A derived owner group: the key username, the member CIs and their
count. -/
structure OwnerGroup where
  username : String
  cisToAssign : List ConfigurationItem
  totalCis : Nat
  deriving Repr, DecidableEq

/-- Modelled from the spec: the repository consumes an upstream-supplied
`grouped_by_owners` field and contains no client-side grouping code, so
`OwnerGrouper.groupByOwner` is modelled from §4.4 of the specification:
one group per distinct primary-recommendation username, in order of first
appearance while scanning the CIs in original order; a group's
`cisToAssign` is the order-preserving list of CIs keyed on it and
`totalCis` its length; CIs with an empty recommendation list are
excluded. -/
def groupByOwner (cis : List ConfigurationItem) : List OwnerGroup :=
  (firstOccs (cis.filterMap ciKey)).map (fun u =>
    { username := u
      cisToAssign := cisForOwner cis u
      totalCis := (cisForOwner cis u).length })

/-- `firstOccs` preserves membership. -/
theorem mem_firstOccs (a : String) (l : List String) :
    a ∈ firstOccs l ↔ a ∈ l := by
  induction l using firstOccs.induct with
  | case1 => rw [firstOccs]
  | case2 b l ih =>
    rw [firstOccs]
    simp only [List.mem_cons, ih, List.mem_filter, bne_iff_ne, ne_eq]
    by_cases hab : a = b
    · simp [hab]
    · simp [hab]

/-- `firstOccs` has no duplicates. -/
theorem nodup_firstOccs (l : List String) : (firstOccs l).Nodup := by
  induction l using firstOccs.induct with
  | case1 => rw [firstOccs]; exact List.nodup_nil
  | case2 b l ih =>
    rw [firstOccs]
    refine List.nodup_cons.mpr ⟨?_, ih⟩
    rw [mem_firstOccs]
    simp [List.mem_filter]

/-- Membership in a group's member list characterised by the key. -/
theorem mem_cisForOwner (cis : List ConfigurationItem)
    (u : String) (ci : ConfigurationItem) :
    ci ∈ cisForOwner cis u ↔ ci ∈ cis ∧ ciKey ci = some u := by
  simp [cisForOwner, List.mem_filter]

/-- Pointwise sum split used for the grouping count. -/
theorem sum_map_add_nat {α : Type} (l : List α) (f g : α → Nat) :
    (l.map (fun x => f x + g x)).sum = (l.map f).sum + (l.map g).sum := by
  induction l with
  | nil => rfl
  | cons a l ih => simp only [List.map_cons, List.sum_cons, ih]; omega

/-- Summing the indicator of one key over a list counts its occurrences. -/
theorem sum_map_indicator (k : String) (us : List String) :
    (us.map (fun u => if k = u then 1 else 0)).sum = us.count k := by
  induction us with
  | nil => rfl
  | cons u us ih =>
    simp only [List.map_cons, List.sum_cons, ih, List.count_cons]
    by_cases h : k = u
    · simp only [h, if_pos rfl, beq_self_eq_true, if_true]
      omega
    · simp [h, Ne.symm h]

/-- Partition count: over any duplicate-free list of keys covering every
key occurring in `cis`, the per-key member counts sum to the number of
CIs that have a key at all. -/
theorem sum_cisForOwner_length (us : List String)
    (cis : List ConfigurationItem) (hnd : us.Nodup)
    (hcov : ∀ ci ∈ cis, ∀ u, ciKey ci = some u → u ∈ us) :
    (us.map (fun u => (cisForOwner cis u).length)).sum
      = cis.countP (fun ci => (ciKey ci).isSome) := by
  induction cis with
  | nil =>
    have h0 : (us.map (fun u => (cisForOwner [] u).length)).sum = 0 := by
      apply List.sum_eq_zero
      intro x hx
      rcases List.mem_map.mp hx with ⟨u, _, rfl⟩
      simp [cisForOwner]
    simp [h0]
  | cons ci rest ih =>
    have hcov' : ∀ c ∈ rest, ∀ u, ciKey c = some u → u ∈ us := by
      intro c hc u hu
      exact hcov c (List.mem_cons_of_mem _ hc) u hu
    have hsplit : (us.map (fun u => (cisForOwner (ci :: rest) u).length)).sum
        = (us.map (fun u => if ciKey ci = some u then 1 else 0)).sum
          + (us.map (fun u => (cisForOwner rest u).length)).sum := by
      rw [← sum_map_add_nat]
      apply congrArg
      apply List.map_congr_left
      intro u _
      simp only [cisForOwner, List.filter_cons]
      by_cases h : ciKey ci = some u
      · simp [h]
        omega
      · simp [h]
    rw [hsplit, ih hcov', List.countP_cons]
    rcases hk : ciKey ci with _ | k
    · have h0 : (us.map (fun u =>
          if (none : Option String) = some u then 1 else 0)).sum = 0 := by
        apply List.sum_eq_zero
        intro x hx
        rcases List.mem_map.mp hx with ⟨u, _, rfl⟩
        simp
      have h1 : (if (none : Option String).isSome = true then 1 else 0) = 0 := by
        simp
      omega
    · have hmem : k ∈ us := hcov ci (List.mem_cons_self ci rest) k hk
      have hind : (us.map (fun u => if some k = some u then 1 else 0)).sum
          = us.count k := by
        rw [← sum_map_indicator k us]
        apply congrArg
        apply List.map_congr_left
        intro u _
        simp
      rw [hind, List.count_eq_one_of_mem hnd hmem]
      have h1 : (if (some k : Option String).isSome = true then 1 else 0) = 1 := by
        simp
      omega

/-- Slicing a list into consecutive `n`-sized pages and concatenating
pages `0 .. ceil(length/n) - 1` reconstructs the list. -/
theorem flatten_chunks {α : Type} (n : Nat) (hn : 0 < n) (l : List α) :
    ((List.range ((l.length + n - 1) / n)).map
        (fun i => (l.drop (i * n)).take n)).flatten = l := by
  rcases eq_or_ne l [] with rfl | hne
  · have h0 : (([] : List α).length + n - 1) / n = 0 := by
      apply Nat.div_eq_of_lt
      simp only [List.length_nil]
      omega
    rw [h0]
    rfl
  · have hlen : 0 < l.length := List.length_pos.mpr hne
    have hstep : (l.length + n - 1) / n = ((l.drop n).length + n - 1) / n + 1 := by
      rw [List.length_drop]
      by_cases hle : n ≤ l.length
      · have h1 : l.length + n - 1 = (l.length - n + n - 1) + n := by omega
        rw [h1, Nat.add_div_right _ hn]
      · have h1 : l.length - n = 0 := by omega
        have h2 : (0 + n - 1) / n = 0 := Nat.div_eq_of_lt (by omega)
        rw [h1, h2, Nat.div_eq]
        rw [if_pos ⟨hn, by omega⟩]
        have h4 : (l.length + n - 1 - n) / n = 0 := Nat.div_eq_of_lt (by omega)
        rw [h4]
    rw [hstep, List.range_succ_eq_map, List.map_cons, List.flatten_cons,
      List.map_map]
    have hf : ((fun i => (l.drop (i * n)).take n) ∘ Nat.succ)
        = fun i => ((l.drop n).drop (i * n)).take n := by
      funext i
      simp only [Function.comp_apply, List.drop_drop]
      congr 2
      rw [Nat.succ_mul]
      exact Nat.add_comm _ _
    rw [hf, flatten_chunks n hn (l.drop n), Nat.zero_mul, List.drop_zero,
      List.take_append_drop]
termination_by l.length
decreasing_by
  rw [List.length_drop]
  omega

/-- A CI's key is present exactly when it has a recommendation. -/
theorem ciKey_isSome (ci : ConfigurationItem) :
    (ciKey ci).isSome = true ↔ ci.recommended_owners ≠ [] := by
  unfold ciKey
  rcases h : ci.recommended_owners with _ | ⟨o, rest⟩ <;> simp [h]

/-- A CI with no recommendations has no grouping key. -/
theorem ciKey_eq_none (ci : ConfigurationItem)
    (h : ci.recommended_owners = []) : ciKey ci = none := by
  simp [ciKey, h]

/-- Every key of a CI of the list is among the group keys. -/
theorem mem_groupKeys (cis : List ConfigurationItem) (u : String) :
    u ∈ firstOccs (cis.filterMap ciKey) ↔ ∃ ci ∈ cis, ciKey ci = some u := by
  rw [mem_firstOccs]
  exact List.mem_filterMap

/-- C2: every CI with a non-empty `recommendedOwners` list is placed in
exactly one group, keyed by its primary recommendation's username; CIs
with no recommendations lie in no group; and the groups' `totalCis` sum
to the number of CIs that have at least one recommendation. -/
theorem C2_groupByOwner_partition (cis : List ConfigurationItem) :
    (∀ ci ∈ cis, ∀ u, ciKey ci = some u →
        ((groupByOwner cis).countP (fun g => decide (ci ∈ g.cisToAssign)) = 1
          ∧ ∀ g ∈ groupByOwner cis, ci ∈ g.cisToAssign → g.username = u))
    ∧ (∀ ci, ci.recommended_owners = [] →
        ∀ g ∈ groupByOwner cis, ci ∉ g.cisToAssign)
    ∧ ((groupByOwner cis).map (fun g => g.totalCis)).sum
        = cis.countP (fun ci => decide (ci.recommended_owners ≠ [])) := by
  have hnd := nodup_firstOccs (cis.filterMap ciKey)
  refine ⟨?_, ?_, ?_⟩
  · intro ci hci u hku
    constructor
    · rw [groupByOwner, List.countP_map]
      have hcongr : (List.countP
          ((fun g => decide (ci ∈ g.cisToAssign)) ∘ (fun u' =>
            ({ username := u', cisToAssign := cisForOwner cis u',
               totalCis := (cisForOwner cis u').length } : OwnerGroup)))
          (firstOccs (cis.filterMap ciKey)))
          = List.countP (fun u' => u' == u) (firstOccs (cis.filterMap ciKey)) := by
        apply List.countP_congr
        intro u' _
        simp only [Function.comp_apply, decide_eq_true_eq, beq_iff_eq]
        rw [mem_cisForOwner]
        constructor
        · intro h
          have h2 := h.2
          rw [hku] at h2
          exact (Option.some_inj.mp h2).symm
        · intro h
          exact ⟨hci, by rw [hku, h]⟩
      rw [hcongr, ← List.count_eq_countP]
      exact List.count_eq_one_of_mem hnd ((mem_groupKeys cis u).mpr ⟨ci, hci, hku⟩)
    · intro g hg hmem
      rcases List.mem_map.mp hg with ⟨u', _, rfl⟩
      have hk' := (mem_cisForOwner cis u' ci).mp hmem |>.2
      rw [hku] at hk'
      show u' = u
      exact (Option.some_inj.mp hk').symm
  · intro ci hrec g hg hmem
    rcases List.mem_map.mp hg with ⟨u', _, rfl⟩
    have hk' := (mem_cisForOwner cis u' ci).mp hmem |>.2
    rw [ciKey_eq_none ci hrec] at hk'
    exact Option.noConfusion hk'
  · rw [groupByOwner, List.map_map]
    have hsum := sum_cisForOwner_length (firstOccs (cis.filterMap ciKey)) cis hnd
      (fun ci hci u hu => (mem_groupKeys cis u).mpr ⟨ci, hci, hu⟩)
    have hmapeq : (List.map
        ((fun g : OwnerGroup => g.totalCis) ∘ (fun u' =>
          ({ username := u', cisToAssign := cisForOwner cis u',
             totalCis := (cisForOwner cis u').length } : OwnerGroup)))
        (firstOccs (cis.filterMap ciKey)))
        = List.map (fun u' => (cisForOwner cis u').length)
            (firstOccs (cis.filterMap ciKey)) := rfl
    rw [hmapeq, hsum]
    apply List.countP_congr
    intro ci _
    simp only [decide_eq_true_eq]
    exact ciKey_isSome ci

/-- Demo owner candidate used by the concrete instances. -/
def alice : OwnerCandidate := { username := "alice", displayName := "Alice", score := 92 }

/-- Demo owner candidate used by the concrete instances. -/
def bob : OwnerCandidate := { username := "bob", displayName := "Bob", score := 77 }

/-- Demo CI: critical risk, primary recommendation `alice`. -/
def demoCi1 : ConfigurationItem :=
  { ci_id := "ci1", name := "srv1", risk_level := some "Critical",
    recommended_owners := [alice, bob] }

/-- Demo CI: medium risk, primary recommendation `alice`. -/
def demoCi2 : ConfigurationItem :=
  { ci_id := "ci2", name := "srv2", risk_level := some "Medium",
    recommended_owners := [alice] }

/-- Demo CI: high risk, no recommendations. -/
def demoCi3 : ConfigurationItem :=
  { ci_id := "ci3", name := "srv3", risk_level := some "High",
    recommended_owners := [] }

/-- Demo CI: missing risk level, no recommendations. -/
def demoCi4 : ConfigurationItem :=
  { ci_id := "ci4", name := "srv4", risk_level := none,
    recommended_owners := [] }

/-- Demo stale-CI list. -/
def demoCis : List ConfigurationItem := [demoCi1, demoCi2, demoCi3, demoCi4]

/-- Build a state holding the given stale CIs, filter and page. -/
def mkState (cis : List ConfigurationItem) (filt : String) (page : Nat) : AppState :=
  { scanResults := some { error := none, stale_cis := .arr cis }
    expandedCI := none
    currentPage := page
    expandedAlternates := ∅
    activeFilter := filt }

/-- Exactly 50 stale CIs. -/
def fifty : List ConfigurationItem := List.replicate 50 demoCi1

/-- Sixty stale CIs, giving two pages. -/
def sixty : List ConfigurationItem := List.replicate 60 demoCi1

/-- State with exactly 50 CIs, filter `all`, requested page 2. -/
def s50 : AppState := mkState fifty "all" 2

/-- State with 60 CIs, filter `all`, page 1. -/
def s60 : AppState := mkState sixty "all" 1

/-- State with 60 CIs, filter `all`, page 2 (the last page). -/
def s60p2 : AppState := mkState sixty "all" 2

/-- Demo state with filter `all`. -/
def sAll : AppState := mkState demoCis "all" 1

/-- Demo state with filter `critical`. -/
def sCrit : AppState := mkState demoCis "critical" 1

/-- Demo state with an empty stale-CI list. -/
def sEmpty : AppState := mkState [] "all" 1

/-- Demo state with one CI's alternates panel open. -/
def sAlt : AppState := { mkState demoCis "all" 1 with expandedAlternates := {"ci1"} }

/-- Claim C1, counterexample: with exactly 50 CIs, pageSize 50 and
requested page 2, the slice is NOT taken at page 1 — the code slices at
the requested page and returns the empty list (no clamping, and no
clamped page value exists in the code). -/
theorem C1_counterexample :
    getTotalPages s50 = 1 ∧ s50.currentPage = 2 ∧ getPaginatedCIs s50 = []
      ∧ getPaginatedCIs (goToPage 1 s50) = fifty := by
  refine ⟨by decide, rfl, by decide, by decide⟩

/-- Claim C1 (amended): the paginator never clamps — whenever the
requested page exceeds the total page count, the slice is empty rather
than the contents of page `max(1, totalPages)`. -/
theorem C1_no_clamp (s : AppState) (h : getTotalPages s < s.currentPage) :
    getPaginatedCIs s = [] := by
  have hd : (getFilteredCIs s).drop ((s.currentPage - 1) * itemsPerPage) = [] := by
    apply List.drop_eq_nil_of_le
    unfold getTotalPages at h
    simp only [itemsPerPage] at h ⊢
    by_cases h0 : (getFilteredCIs s).length = 0
    · rw [if_pos h0] at h
      omega
    · rw [if_neg h0] at h
      omega
  unfold getPaginatedCIs
  rw [hd]
  rfl

/-- Witness for C1 at the 50-CIs/page-2 scenario. -/
theorem C1_no_clamp_witness :
    getTotalPages s50 < s50.currentPage ∧ getPaginatedCIs s50 = [] :=
  ⟨by decide, C1_no_clamp s50 (by decide)⟩

/-- Claim C3, counterexample: page navigation does not fully reset the
selection state — after `goToPage(2)` the expanded-alternates set still
holds `ci1` instead of being empty. -/
theorem C3_counterexample :
    (goToPage 2 sAlt).expandedAlternates ≠ (∅ : Finset String) := by
  decide

/-- Claim C3 (amended): `goToPage` clears the expanded CI but leaves the
expanded-alternates set untouched; `nextPage`/`prevPage` clear the
expanded CI only when they move, never touch the alternates, and change
nothing at all at the bounds. -/
theorem C3_navigation_selection (s : AppState) (n : Nat) :
    (goToPage n s).expandedCI = none
    ∧ (goToPage n s).expandedAlternates = s.expandedAlternates
    ∧ (goToNextPage s).expandedAlternates = s.expandedAlternates
    ∧ (goToPrevPage s).expandedAlternates = s.expandedAlternates
    ∧ (s.currentPage < getTotalPages s → (goToNextPage s).expandedCI = none)
    ∧ (getTotalPages s ≤ s.currentPage → goToNextPage s = s)
    ∧ (1 < s.currentPage → (goToPrevPage s).expandedCI = none)
    ∧ (s.currentPage ≤ 1 → goToPrevPage s = s) := by
  refine ⟨rfl, rfl, ?_, ?_, ?_, ?_, ?_, ?_⟩
  · unfold goToNextPage
    by_cases h : s.currentPage < getTotalPages s
    · rw [if_pos h]
      rfl
    · rw [if_neg h]
  · unfold goToPrevPage
    by_cases h : 1 < s.currentPage
    · rw [if_pos h]
      rfl
    · rw [if_neg h]
  · intro h
    unfold goToNextPage
    rw [if_pos h]
    rfl
  · intro h
    unfold goToNextPage
    rw [if_neg (by omega)]
  · intro h
    unfold goToPrevPage
    rw [if_pos h]
    rfl
  · intro h
    unfold goToPrevPage
    rw [if_neg (by omega)]

/-- Witness for C3 on concrete navigations. -/
theorem C3_witness :
    (goToNextPage s60).expandedCI = none
      ∧ (goToPrevPage s60p2).expandedCI = none
      ∧ (goToPage 2 sAlt).expandedAlternates = sAlt.expandedAlternates :=
  ⟨(C3_navigation_selection s60 1).2.2.2.2.1 (by decide),
   (C3_navigation_selection s60p2 1).2.2.2.2.2.2.1 (by decide),
   (C3_navigation_selection sAlt 2).2.1⟩

/-- Claim C4: filter `'all'` returns the stale-CI list unchanged; each
specific category yields the order-preserving subsequence of CIs whose
lowercased risk level equals it; a CI with a missing risk level never
matches a specific category. -/
theorem C4_filter_correct (s : AppState) (cis : List ConfigurationItem)
    (harr : ∃ p, s.scanResults = some p ∧ p.stale_cis = .arr cis) :
    (s.activeFilter = "all" → getFilteredCIs s = cis)
    ∧ (s.activeFilter ∈ (["critical", "high", "medium", "low"] : List String) →
        (getFilteredCIs s).Sublist cis
        ∧ (∀ ci, ci ∈ getFilteredCIs s ↔ ci ∈ cis ∧ jsRiskLower ci = s.activeFilter)
        ∧ (∀ ci, ci.risk_level = none → ci ∉ getFilteredCIs s)) := by
  obtain ⟨p, hp, hcis⟩ := harr
  have hbase : getFilteredCIs s
      = if s.activeFilter = "all" then cis
        else cis.filter (fun ci => jsRiskLower ci = s.activeFilter) := by
    simp only [getFilteredCIs, hp, hcis]
  constructor
  · intro h
    rw [hbase, if_pos h]
  · intro hmem
    have hne1 : s.activeFilter ≠ "all" := by
      simp only [List.mem_cons, List.not_mem_nil, or_false] at hmem
      rcases hmem with h | h | h | h <;> rw [h] <;> decide
    have hne2 : s.activeFilter ≠ "" := by
      simp only [List.mem_cons, List.not_mem_nil, or_false] at hmem
      rcases hmem with h | h | h | h <;> rw [h] <;> decide
    have hflt : getFilteredCIs s
        = cis.filter (fun ci => jsRiskLower ci = s.activeFilter) := by
      rw [hbase, if_neg hne1]
    refine ⟨?_, ?_, ?_⟩
    · rw [hflt]
      exact List.filter_sublist cis
    · intro ci
      rw [hflt, List.mem_filter]
      simp only [decide_eq_true_eq]
    · intro ci hrl hin
      rw [hflt, List.mem_filter] at hin
      have h2 := hin.2
      simp only [decide_eq_true_eq, jsRiskLower, hrl] at h2
      exact hne2 h2.symm

/-- Witness for C4 on the demo data. -/
theorem C4_witness :
    getFilteredCIs sAll = demoCis
      ∧ (getFilteredCIs sCrit).Sublist demoCis
      ∧ demoCi4 ∉ getFilteredCIs sCrit :=
  ⟨(C4_filter_correct sAll demoCis ⟨_, rfl, rfl⟩).1 rfl,
   ((C4_filter_correct sCrit demoCis ⟨_, rfl, rfl⟩).2 (by decide)).1,
   ((C4_filter_correct sCrit demoCis ⟨_, rfl, rfl⟩).2 (by decide)).2.2 demoCi4 rfl⟩

/-- Claim C5: with pageSize 50, `totalPages` equals `ceil(len/50)` (and
is 0 when the filtered list is empty), every page slice has length at
most `itemsPerPage`, and concatenating the slices of pages
`1..totalPages` reconstructs the filtered sequence exactly. -/
theorem C5_pagination_reconstruct (s : AppState) :
    getTotalPages s
        = ((getFilteredCIs s).length + itemsPerPage - 1) / itemsPerPage
    ∧ (getFilteredCIs s = [] → getTotalPages s = 0)
    ∧ (∀ p : Nat,
        (getPaginatedCIs { s with currentPage := p }).length ≤ itemsPerPage)
    ∧ ((List.range (getTotalPages s)).map
        (fun i => getPaginatedCIs { s with currentPage := i + 1 })).flatten
      = getFilteredCIs s := by
  have hTP : getTotalPages s
      = ((getFilteredCIs s).length + itemsPerPage - 1) / itemsPerPage := by
    unfold getTotalPages
    by_cases h0 : (getFilteredCIs s).length = 0
    · rw [if_pos h0, h0]
      decide
    · rw [if_neg h0]
  refine ⟨hTP, ?_, ?_, ?_⟩
  · intro h
    unfold getTotalPages
    rw [if_pos (by rw [h]; rfl)]
  · intro p
    exact List.length_take_le _ _
  · rw [hTP]
    exact flatten_chunks itemsPerPage (by decide) (getFilteredCIs s)

/-- Witness for C5 at concrete states. -/
theorem C5_witness :
    getTotalPages sEmpty = 0
      ∧ (getPaginatedCIs { s60 with currentPage := 2 }).length ≤ itemsPerPage :=
  ⟨(C5_pagination_reconstruct sEmpty).2.1 rfl,
   (C5_pagination_reconstruct s60).2.2.1 2⟩

/-- Claim C6: `nextPage` invoked at the last page and `prevPage` invoked
at page 1 leave the state unchanged — they never wrap (and, being total
functions, never throw). -/
theorem C6_nav_noop_at_bounds (s : AppState) :
    (s.currentPage = getTotalPages s → goToNextPage s = s)
    ∧ (s.currentPage = 1 → goToPrevPage s = s) := by
  constructor
  · intro h
    unfold goToNextPage
    rw [if_neg (by omega)]
  · intro h
    unfold goToPrevPage
    rw [if_neg (by omega)]

/-- Witness for C6 at the last page of a two-page state and at page 1. -/
theorem C6_witness : goToNextPage s60p2 = s60p2 ∧ goToPrevPage sAll = sAll :=
  ⟨(C6_nav_noop_at_bounds s60p2).1 (by decide),
   (C6_nav_noop_at_bounds sAll).2 rfl⟩

/-- Claim C7: installing any new payload (scan result or error) resets
the page to 1, the filter to `'all'`, the expanded CI to none and the
expanded-alternates set to empty. -/
theorem C7_setResult_resets (s : AppState) (p : Option ScanPayload) :
    (setResult p s).currentPage = 1
    ∧ (setResult p s).activeFilter = "all"
    ∧ (setResult p s).expandedCI = none
    ∧ (setResult p s).expandedAlternates = (∅ : Finset String)
    ∧ (setResult p s).scanResults = p :=
  ⟨rfl, rfl, rfl, rfl, rfl⟩

/-- Payload carrying a non-empty error message, as built by the scan
error path. -/
def pErr : ScanPayload :=
  { error := some "Scan failed. Please try again.", stale_cis := .missing }

/-- State holding the error payload. -/
def sErr : AppState :=
  { scanResults := some pErr, expandedCI := none, currentPage := 1,
    expandedAlternates := ∅, activeFilter := "all" }

/-- Payload whose `error` field is present but the empty string. -/
def pErrEmpty : ScanPayload := { error := some "", stale_cis := .missing }

/-- State holding the empty-string error payload. -/
def sErrEmpty : AppState :=
  { scanResults := some pErrEmpty, expandedCI := none, currentPage := 1,
    expandedAlternates := ∅, activeFilter := "all" }

/-- Claim C8, counterexample: a payload carrying the `error` field with
the empty string does contain an `error` field, yet the truthiness test
sends rendering to the results branch, not the error card. -/
theorem C8_counterexample :
    pErrEmpty.error = some "" ∧ sErrEmpty.scanResults = some pErrEmpty
      ∧ render sErrEmpty = RenderView.resultsView [] 0 :=
  ⟨rfl, rfl, by decide⟩

/-- Claim C8 (amended): every payload whose `error` field is present and
non-empty renders only the error card carrying that message — no CI data
appears in the rendered view. -/
theorem C8_error_renders_message (s : AppState) (p : ScanPayload) (msg : String)
    (hs : s.scanResults = some p) (he : p.error = some msg) (hm : msg ≠ "") :
    render s = RenderView.errorCard msg := by
  simp [render, hs, he, errTruthy, hm]

/-- Witness for C8 at the concrete error state. -/
theorem C8_witness :
    render sErr = RenderView.errorCard "Scan failed. Please try again." :=
  C8_error_renders_message sErr pErr _ rfl rfl (by decide)

/-- Claim C9: a requested page `p ≥ 1` whose start index `(p-1)*50` is at
or past the end of the filtered sequence yields the empty slice — the
slicing is total and does not clamp to an earlier page. -/
theorem C9_page_past_end_empty (s : AppState) (hpage : 1 ≤ s.currentPage)
    (h : (getFilteredCIs s).length ≤ (s.currentPage - 1) * itemsPerPage) :
    getPaginatedCIs s = [] := by
  unfold getPaginatedCIs
  rw [List.drop_eq_nil_of_le h]
  rfl

/-- Witness for C9 at the 50-CIs/page-2 state. -/
theorem C9_witness : getPaginatedCIs s50 = [] :=
  C9_page_past_end_empty s50 (by decide) (by decide)

/-- State with no scan results installed. -/
def sNone : AppState :=
  { scanResults := none, expandedCI := none, currentPage := 1,
    expandedAlternates := ∅, activeFilter := "critical" }

/-- Claim C10: when no scan result is present, or its `stale_cis` field
is missing or not an array, filtering returns `[]` for every active
filter instead of failing. -/
theorem C10_filter_total_absent (s : AppState)
    (h : s.scanResults = none
      ∨ ∃ p, s.scanResults = some p
          ∧ (p.stale_cis = .missing ∨ p.stale_cis = .nonArray)) :
    getFilteredCIs s = [] := by
  rcases h with h | ⟨p, hp, hm | hm⟩
  · simp [getFilteredCIs, h]
  · simp [getFilteredCIs, hp, hm]
  · simp [getFilteredCIs, hp, hm]

/-- Witness for C10 with no scan result installed. -/
theorem C10_witness : getFilteredCIs sNone = [] :=
  C10_filter_total_absent sNone (Or.inl rfl)

/-- Witness for C2 on the demo data: `alice` is primary for two CIs and
two CIs have no recommendations. -/
theorem C2_witness :
    ((groupByOwner demoCis).map (fun g => g.totalCis)).sum = 2
      ∧ (groupByOwner demoCis).countP
          (fun g => decide (demoCi1 ∈ g.cisToAssign)) = 1 := by
  have h := C2_groupByOwner_partition demoCis
  refine ⟨?_, ?_⟩
  · rw [h.2.2]
    decide
  · exact (h.1 demoCi1 (by decide) "alice" (by decide)).1
